import Mathlib

/-!
Verification of the parallel task orchestrator core against its
natural-language specification.

The definitions below are a shallow embedding of the Python sources:

* `backends/threading_backend.py` — in-memory backend (`ThreadingState`,
  `canExecuteTask`, `selectTask`, `markTaskComplete`, `markTaskFailed`,
  `getTaskStatus`, `workerIteration`, the worker-pool transition system
  `PoolStep`).
* `backends/slurm_backend.py` — file-state SLURM backend (`RetryManager`,
  `slurmSubmitLoop`, `buildSbatchCmd`, `updateTaskStatus`,
  `slurmMarkTaskComplete`).
* `backends/aws_batch_backend.py` — AWS Batch backend (`batchSubmitLoop`,
  `batchDependsOnArgs`; its `RetryManager` is textually identical to the
  SLURM one and is shared here).
* `config.py` — retry defaults (`defaultRetryManager`).

Python dicts are modelled as association lists with dict update semantics
(`assocSet` replaces in place, appends when the key is new); Python sets of
task ids are modelled as `Finset String`; filesystem directories keyed by
file name are association lists as well. Everything lives in namespace `PO`
(parallel orchestrator) to avoid clashing with core names.
-/

namespace PO

/-! ## Association lists: model of Python dicts -/

/-- Lookup in an association list, mirroring `d.get(k)` on a Python dict. -/
def assocGet {α : Type} (m : List (String × α)) (k : String) : Option α :=
  (m.find? (fun p => p.1 == k)).map (fun p => p.2)

/-- Update of an association list mirroring `d[k] = v` on a Python dict:
the value is replaced in place when the key is present, appended otherwise
(insertion order preserved, as in CPython). -/
def assocSet {α : Type} (m : List (String × α)) (k : String) (v : α) : List (String × α) :=
  if m.any (fun p => p.1 == k) then
    m.map (fun p => if p.1 == k then (k, v) else p)
  else
    m ++ [(k, v)]

/-- Number of entries for a key (a real dict, and a directory of files,
has at most one). -/
def assocCount {α : Type} (m : List (String × α)) (k : String) : Nat :=
  (m.filter (fun p => p.1 == k)).length

theorem find_map_set {α : Type} (m : List (String × α)) (k : String) (v : α)
    (h : m.any (fun p => p.1 == k) = true) :
    (m.map (fun p => if p.1 == k then (k, v) else p)).find? (fun p => p.1 == k)
      = some (k, v) := by
  induction m with
  | nil => simp at h
  | cons p t ih =>
    by_cases hp : (p.1 == k) = true
    · have hv : (if (p.1 == k) = true then (k, v) else p) = (k, v) := by simp [hp]
      rw [List.map_cons, hv, List.find?_cons_of_pos _ (by simp)]
    · simp only [List.any_cons, hp, Bool.false_or] at h
      have hv : (if (p.1 == k) = true then (k, v) else p) = p := by simp [hp]
      rw [List.map_cons, hv, List.find?_cons_of_neg _ (by simp [hp])]
      exact ih h

theorem find_append_none {α : Type} (m : List (String × α)) (k : String)
    (h : m.find? (fun p => p.1 == k) = none) (l : List (String × α)) :
    (m ++ l).find? (fun p => p.1 == k) = l.find? (fun p => p.1 == k) := by
  induction m with
  | nil => simp
  | cons p t ih =>
    by_cases hp : (p.1 == k) = true
    · rw [List.find?_cons_of_pos (p := fun q => q.1 == k) t hp] at h
      simp at h
    · rw [List.find?_cons_of_neg (p := fun q => q.1 == k) t hp] at h
      rw [List.cons_append, List.find?_cons_of_neg (p := fun q => q.1 == k) (t ++ l) hp]
      exact ih h

theorem assocGet_set_self {α : Type} (m : List (String × α)) (k : String) (v : α) :
    assocGet (assocSet m k v) k = some v := by
  unfold assocGet assocSet
  by_cases h : m.any (fun p => p.1 == k) = true
  · rw [if_pos h, find_map_set m k v h]
    rfl
  · rw [if_neg h]
    have hnone : m.find? (fun p => p.1 == k) = none := by
      rw [List.find?_eq_none]
      intro x hx hpx
      exact h (List.any_eq_true.mpr ⟨x, hx, hpx⟩)
    rw [find_append_none m k hnone]
    simp [List.find?]

/-! ## Task and plan data model -/

/-- A task record; the fields the embedded code reads.
Mirrors the task dicts produced by the planner. -/
structure Task where
  id : String
  name : String
  description : String
  priority : Nat
  deriving DecidableEq, Repr

/-- An execution plan: the ordered task list and the dependency mapping
`task_id -> list of prerequisite task ids` (`plan["dependencies"]`).
A task id absent from the mapping yields `[]`, matching
`plan.get("dependencies", {}).get(task_id, [])`. -/
structure Plan where
  tasks : List Task
  dependencies : String → List String

/-! ## Threading backend state (`backends/threading_backend.py`) -/

/-- A result record as appended to `ThreadingBackend.results`:
`{task_id, status, error?}` plus opaque payload fields we omit. -/
structure TaskResult where
  task_id : String
  status : String
  error : Option String
  deriving DecidableEq, Repr

/-- The failure result dict built by `ThreadingBackend.mark_task_failed`. -/
def failedResult (tid error : String) : TaskResult :=
  { task_id := tid, status := "failed", error := some error }

/-- In-memory state of `ThreadingBackend`: the two id sets, the result
list, the submitted tasks and the plan (`none` before `submit_tasks`). -/
structure ThreadingState where
  tasks : List Task
  plan : Option Plan
  completed_tasks : Finset String
  in_progress_tasks : Finset String
  results : List TaskResult

/-- `ThreadingBackend.can_execute_task`: `True` when there is no plan,
otherwise all dependencies of the task must be in `completed_tasks`. -/
def canExecuteTask (plan : Option Plan) (completed : Finset String) (t : Task) : Bool :=
  match plan with
  | none => true
  | some p => (p.dependencies t.id).all (fun dep => decide (dep ∈ completed))

/-- The scan in `ThreadingBackend._executor_worker` (under `task_lock`):
the first task that is not completed, not in progress, and whose
dependencies are satisfied. -/
def selectTask (s : ThreadingState) : Option Task :=
  s.tasks.find? (fun t =>
    !(decide (t.id ∈ s.completed_tasks)) &&
    !(decide (t.id ∈ s.in_progress_tasks)) &&
    canExecuteTask s.plan s.completed_tasks t)

/-- Claiming a task: `self.in_progress_tasks.add(task_id)` under the lock. -/
def claimTask (s : ThreadingState) (t : Task) : ThreadingState :=
  { s with in_progress_tasks := insert t.id s.in_progress_tasks }

/-- First half of `ThreadingBackend.mark_task_complete`: append the result
under `results_lock`. -/
def recordResult (s : ThreadingState) (r : TaskResult) : ThreadingState :=
  { s with results := s.results ++ [r] }

/-- Second half of `ThreadingBackend.mark_task_complete`: under
`task_lock`, add to `completed_tasks` and discard from
`in_progress_tasks`. -/
def markCompletedSets (s : ThreadingState) (tid : String) : ThreadingState :=
  { s with
    completed_tasks := insert tid s.completed_tasks
    in_progress_tasks := s.in_progress_tasks.erase tid }

/-- `ThreadingBackend.mark_task_complete`: record result, then update the
state sets. -/
def markTaskComplete (s : ThreadingState) (tid : String) (r : TaskResult) : ThreadingState :=
  markCompletedSets (recordResult s r) tid

/-- The externally observable states while `mark_task_complete` runs: the
state before, the state after the result append, and the final state. -/
def markTaskCompleteTrace (s : ThreadingState) (tid : String) (r : TaskResult) :
    List ThreadingState :=
  [s, recordResult s r, markTaskComplete s tid r]

/-- `ThreadingBackend.mark_task_failed`: append a failure result, then
discard the id from `in_progress_tasks` (nothing else changes; in
particular there is no attempt counter). -/
def markTaskFailed (s : ThreadingState) (tid : String) (error : String) : ThreadingState :=
  { s with
    results := s.results ++ [failedResult tid error]
    in_progress_tasks := s.in_progress_tasks.erase tid }

/-- `ThreadingBackend.get_results`: a copy of the result list. -/
def getResults (s : ThreadingState) : List TaskResult :=
  s.results

/-- `ThreadingBackend.get_task_status`. -/
def getTaskStatus (s : ThreadingState) (tid : String) : String :=
  if tid ∈ s.completed_tasks then "completed"
  else if tid ∈ s.in_progress_tasks then "in_progress"
  else
    match s.results.find? (fun r => r.task_id == tid && r.status == "failed") with
    | some _ => "failed"
    | none => "pending"

/-- Outcome of one invocation of the executor function
(`ParallelOrchestrator.execute_task`): either a result handed to
`mark_task_complete`, or an exception message handed to
`mark_task_failed`. -/
inductive ExecOutcome where
  | success (r : TaskResult)
  | failure (error : String)

/-- One iteration of `ThreadingBackend._executor_worker` for a single
worker: scan and claim under the lock; if a task was claimed, execute it
and record the terminal transition; otherwise check the shutdown
condition `len(completed) + len(failed results) >= len(tasks)`.
Returns the new state and whether the worker shut down. -/
def workerIteration (exec : Task → ExecOutcome) (s : ThreadingState) :
    ThreadingState × Bool :=
  match selectTask s with
  | some t =>
    let s1 := claimTask s t
    match exec t with
    | .success r => (markTaskComplete s1 t.id r, false)
    | .failure e => (markTaskFailed s1 t.id e, false)
  | none =>
    let processed := s.completed_tasks.card +
      (s.results.filter (fun r => r.status == "failed")).length
    if s.tasks.length ≤ processed then (s, true) else (s, false)

/-- Number of failure results recorded so far. -/
def failedCount (s : ThreadingState) : Nat :=
  (s.results.filter (fun r => r.status == "failed")).length

/-! ## RetryManager (`backends/slurm_backend.py` / `aws_batch_backend.py`;
the two classes are textually identical) -/

/-- Delays are exact in the source for the default parameters, so they are
modelled over `ℚ`. `retry_counts` is the `task_id -> attempts` dict. -/
structure RetryManager where
  max_retries : Nat
  base_delay : ℚ
  exponential_backoff : Bool
  backoff_multiplier : ℚ
  retry_counts : List (String × Nat)

/-- `self.retry_counts.get(task_id, 0)`. -/
def RetryManager.getCount (rm : RetryManager) (tid : String) : Nat :=
  (assocGet rm.retry_counts tid).getD 0

/-- `RetryManager.should_retry`. -/
def RetryManager.shouldRetry (rm : RetryManager) (tid : String) : Bool :=
  rm.getCount tid < rm.max_retries

/-- `RetryManager.record_attempt`: increment and return the new count. -/
def RetryManager.recordAttempt (rm : RetryManager) (tid : String) : RetryManager × Nat :=
  let c := rm.getCount tid + 1
  ({ rm with retry_counts := assocSet rm.retry_counts tid c }, c)

/-- `RetryManager.get_delay`: `base_delay * multiplier ** attempts` with
`attempts = retry_counts.get(task_id, 0)`, or constant `base_delay`
without exponential backoff. -/
def RetryManager.getDelay (rm : RetryManager) (tid : String) : ℚ :=
  if rm.exponential_backoff then
    rm.base_delay * rm.backoff_multiplier ^ rm.getCount tid
  else
    rm.base_delay

/-- The retry sequence of `_handle_failed_jobs` (both durable backends):
`retry_count = record_attempt(task_id)` followed by
`delay = get_delay(task_id)`; returns the attempt number and the slept
delay. -/
def delayBeforeRetry (rm : RetryManager) (tid : String) : Nat × ℚ :=
  let p := rm.recordAttempt tid
  (p.2, p.1.getDelay tid)

/-- The defaults of `RetryConfig` in `config.py` (also the `RetryManager`
constructor defaults): `max_retries = 3`, `retry_delay_seconds = 5.0`,
`exponential_backoff = True`, `backoff_multiplier = 2.0`. -/
def defaultRetryManager : RetryManager :=
  { max_retries := 3
    base_delay := 5
    exponential_backoff := true
    backoff_multiplier := 2
    retry_counts := [] }

/-! ## SLURM job submission (`SlurmBackend._submit_all_jobs`,
`SlurmBackend._submit_slurm_job`) -/

/-- `[self.job_ids[dep] for dep in task_deps if dep in self.job_ids]`. -/
def slurmDepJobIds (jobIds : List (String × String)) (deps : List String) : List String :=
  deps.filterMap (fun dep => assocGet jobIds dep)

/-- The `--dependency` part of the sbatch command: present only when
there are dependency job ids, as `afterok:J1:J2:...`. -/
def sbatchDependencyArgs (depJobIds : List String) : List String :=
  if depJobIds.isEmpty then []
  else ["--dependency", "afterok:" ++ String.intercalate ":" depJobIds]

/-- The full sbatch command line of `_submit_slurm_job`, parameterized by
the configuration-derived pieces (`slurm_config.get_sbatch_args()`, the
logs directory and the generated script path). -/
def buildSbatchCmd (sbatchArgs : List String) (taskName taskId logsDir : String)
    (depJobIds : List String) (scriptPath : String) : List String :=
  ["sbatch"] ++ sbatchArgs ++
  ["--job-name", "po_" ++ taskName ++ "_" ++ taskId] ++
  ["--output", logsDir ++ "/" ++ taskId ++ ".out",
   "--error", logsDir ++ "/" ++ taskId ++ ".err"] ++
  sbatchDependencyArgs depJobIds ++
  [scriptPath]

/-- One recorded external submission of the SLURM backend: the task, the
dependency job ids passed to sbatch, and the returned job id. -/
structure SlurmSubmission where
  taskId : String
  depJobIds : List String
  jobId : String
  deriving DecidableEq, Repr

/-- Mutable state of the `_submit_all_jobs` loop: `self.job_ids`, the
`submitted` set (kept as the ordered list of additions), the submissions
performed so far (in order), and the task-status updates (a dict view of
the `_update_task_status` calls). -/
structure SlurmSubState where
  jobIds : List (String × String)
  submitted : List String
  subs : List SlurmSubmission
  statuses : List (String × String)
  deriving DecidableEq, Repr

/-- The `for task in ready` body of `_submit_all_jobs`: compute the
dependency job ids from the current `job_ids`, submit (the external
`sbatch` is the oracle `jobIdOf`), and on success record the job id, add
to `submitted` and set the task in progress. A failed submission changes
nothing (the task was already removed from `pending`). -/
def slurmSubmitRound (jobIdOf : String → Option String) (deps : String → List String) :
    List Task → SlurmSubState → SlurmSubState
  | [], st => st
  | t :: rest, st =>
    let st' :=
      match jobIdOf t.id with
      | some j =>
        { jobIds := assocSet st.jobIds t.id j
          submitted := st.submitted ++ [t.id]
          subs := st.subs ++ [{ taskId := t.id
                                depJobIds := slurmDepJobIds st.jobIds (deps t.id)
                                jobId := j }]
          statuses := assocSet st.statuses t.id "in_progress" }
      | none => st
    slurmSubmitRound jobIdOf deps rest st'

/-- The `while pending` loop of `_submit_all_jobs`: each round takes the
pending tasks whose dependencies are all in `submitted`; when no task is
ready the loop warns about a possible circular dependency and breaks.
`fuel` is an upper bound on the number of rounds; every productive round
removes at least one pending task, so `tasks.length` suffices. -/
def slurmSubmitLoop (jobIdOf : String → Option String) (deps : String → List String) :
    Nat → List Task → SlurmSubState → SlurmSubState
  | 0, _, st => st
  | fuel + 1, pending, st =>
    if (pending.filter (fun t =>
        (deps t.id).all (fun d => decide (d ∈ st.submitted)))).isEmpty then st
    else
      slurmSubmitLoop jobIdOf deps fuel
        (pending.filter (fun t =>
          !((deps t.id).all (fun d => decide (d ∈ st.submitted)))))
        (slurmSubmitRound jobIdOf deps
          (pending.filter (fun t =>
            (deps t.id).all (fun d => decide (d ∈ st.submitted)))) st)

/-- `SlurmBackend._submit_all_jobs`. The `maxExecutors` parameter is
received (it is the second argument in the source) but the body never
reads it. -/
def slurmSubmitAllJobs (jobIdOf : String → Option String) (deps : String → List String)
    (tasks : List Task) (maxExecutors : Nat) : SlurmSubState :=
  slurmSubmitLoop jobIdOf deps tasks.length tasks
    { jobIds := [], submitted := [], subs := [], statuses := [] }

/-! ## AWS Batch job submission (`AWSBatchBackend._submit_all_jobs`,
`AWSBatchBackend._submit_batch_job`) -/

/-- One `depends_on` entry: `{"jobId": jid, "type": "SEQUENTIAL"}`. -/
structure BatchDependency where
  jobId : String
  type : String
  deriving DecidableEq, Repr

/-- The `--depends-on` payload of `_submit_batch_job`: absent when there
are no dependency job ids. -/
def batchDependsOnArgs (depJobIds : List String) : Option (List BatchDependency) :=
  if depJobIds.isEmpty then none
  else some (depJobIds.map (fun jid => { jobId := jid, type := "SEQUENTIAL" }))

/-- One recorded external submission of the Batch backend. -/
structure BatchSubmission where
  taskId : String
  depJobIds : List String
  jobId : String
  deriving DecidableEq, Repr

/-- Loop state for the Batch `_submit_all_jobs`: `self.job_mapping`, the
`submitted` set, the ordered submissions and `self.task_status`. -/
structure BatchSubState where
  jobMapping : List (String × String)
  submitted : List String
  subs : List BatchSubmission
  taskStatus : List (String × String)
  deriving DecidableEq, Repr

/-- The `for task in ready` body of the Batch `_submit_all_jobs`: unlike
the SLURM variant, a failed submission sets the task status to
`failed`. -/
def batchSubmitRound (jobIdOf : String → Option String) (deps : String → List String) :
    List Task → BatchSubState → BatchSubState
  | [], st => st
  | t :: rest, st =>
    let st' :=
      match jobIdOf t.id with
      | some j =>
        { jobMapping := assocSet st.jobMapping t.id j
          submitted := st.submitted ++ [t.id]
          subs := st.subs ++ [{ taskId := t.id
                                depJobIds := slurmDepJobIds st.jobMapping (deps t.id)
                                jobId := j }]
          taskStatus := assocSet st.taskStatus t.id "submitted" }
      | none => { st with taskStatus := assocSet st.taskStatus t.id "failed" }
    batchSubmitRound jobIdOf deps rest st'

/-- The `while pending` loop of the Batch `_submit_all_jobs`. -/
def batchSubmitLoop (jobIdOf : String → Option String) (deps : String → List String) :
    Nat → List Task → BatchSubState → BatchSubState
  | 0, _, st => st
  | fuel + 1, pending, st =>
    if (pending.filter (fun t =>
        (deps t.id).all (fun d => decide (d ∈ st.submitted)))).isEmpty then st
    else
      batchSubmitLoop jobIdOf deps fuel
        (pending.filter (fun t =>
          !((deps t.id).all (fun d => decide (d ∈ st.submitted)))))
        (batchSubmitRound jobIdOf deps
          (pending.filter (fun t =>
            (deps t.id).all (fun d => decide (d ∈ st.submitted)))) st)

/-- `AWSBatchBackend._submit_all_jobs` (no budget parameter at all). -/
def batchSubmitAllJobs (jobIdOf : String → Option String) (deps : String → List String)
    (tasks : List Task) : BatchSubState :=
  batchSubmitLoop jobIdOf deps tasks.length tasks
    { jobMapping := [], submitted := [], subs := [], taskStatus := [] }

/-- The retry pass `SlurmBackend._handle_failed_jobs`, iterating over the
failed task ids read from `tasks.json` after monitoring. For each failed
id with retry budget left it records the attempt, sleeps the backoff
delay (sleeping performs no submission), resets the status to `pending`,
recomputes the dependency job ids from the current `job_ids`, and
resubmits via `_submit_slurm_job`; on success the new job id replaces the
old one and the status becomes `in_progress`. The method receives
`maxExecutors` (its second parameter in the source) but the body never
reads it. -/
def slurmHandleFailedJobs (jobIdOf : String → Option String) (deps : String → List String)
    (tasks : List Task) (maxExecutors : Nat) :
    List String → RetryManager → SlurmSubState → RetryManager × SlurmSubState
  | [], rm, st => (rm, st)
  | tid :: rest, rm, st =>
    if rm.shouldRetry tid then
      match tasks.find? (fun t => t.id == tid) with
      | some t =>
        match jobIdOf t.id with
        | some j =>
          slurmHandleFailedJobs jobIdOf deps tasks maxExecutors rest
            (rm.recordAttempt tid).1
            { jobIds := assocSet st.jobIds tid j
              submitted := st.submitted
              subs := st.subs ++ [{ taskId := tid
                                    depJobIds := slurmDepJobIds st.jobIds (deps tid)
                                    jobId := j }]
              statuses := assocSet st.statuses tid "in_progress" }
        | none =>
          slurmHandleFailedJobs jobIdOf deps tasks maxExecutors rest
            (rm.recordAttempt tid).1
            { st with statuses := assocSet st.statuses tid "pending" }
      | none =>
        slurmHandleFailedJobs jobIdOf deps tasks maxExecutors rest
          (rm.recordAttempt tid).1
          { st with statuses := assocSet st.statuses tid "pending" }
    else
      slurmHandleFailedJobs jobIdOf deps tasks maxExecutors rest rm st

/-- The retry pass `AWSBatchBackend._handle_failed_jobs` (no budget
parameter at all in its signature): for each failed id with retry budget
left it records the attempt, sleeps, and resubmits via
`_submit_batch_job`; on success the new job id replaces the old one and
the status becomes `submitted`. Unlike the SLURM variant it never resets
the status to `pending`. -/
def batchHandleFailedJobs (jobIdOf : String → Option String) (deps : String → List String)
    (tasks : List Task) :
    List String → RetryManager → BatchSubState → RetryManager × BatchSubState
  | [], rm, st => (rm, st)
  | tid :: rest, rm, st =>
    if rm.shouldRetry tid then
      match tasks.find? (fun t => t.id == tid) with
      | some t =>
        match jobIdOf t.id with
        | some j =>
          batchHandleFailedJobs jobIdOf deps tasks rest
            (rm.recordAttempt tid).1
            { jobMapping := assocSet st.jobMapping tid j
              submitted := st.submitted
              subs := st.subs ++ [{ taskId := tid
                                    depJobIds := slurmDepJobIds st.jobMapping (deps tid)
                                    jobId := j }]
              taskStatus := assocSet st.taskStatus tid "submitted" }
        | none =>
          batchHandleFailedJobs jobIdOf deps tasks rest (rm.recordAttempt tid).1 st
      | none =>
        batchHandleFailedJobs jobIdOf deps tasks rest (rm.recordAttempt tid).1 st
    else
      batchHandleFailedJobs jobIdOf deps tasks rest rm st

/-- All external submissions performed by
`SlurmBackend.wait_for_completion`: the initial `_submit_all_jobs` pass
followed by the `_handle_failed_jobs` retry pass, both of which receive
`max_executors` and never read it. The interleaving `_monitor_jobs`
phase polls the external scheduler, performs no submissions and never
reads `max_executors`; the failed ids it leaves in `tasks.json` are
determined by the external job outcomes and enter here as
`failedAfterMonitor`. -/
def slurmWaitForCompletionSubmits (jobIdOf : String → Option String)
    (deps : String → List String) (tasks : List Task)
    (failedAfterMonitor : List String) (rm : RetryManager) (maxExecutors : Nat) :
    RetryManager × SlurmSubState :=
  slurmHandleFailedJobs jobIdOf deps tasks maxExecutors failedAfterMonitor rm
    (slurmSubmitAllJobs jobIdOf deps tasks maxExecutors)

/-- All external submissions performed by
`AWSBatchBackend.wait_for_completion`: the initial `_submit_all_jobs`
pass followed by the `_handle_failed_jobs` retry pass. `max_executors`
reaches only the log line in `wait_for_completion` itself; neither pass
is handed it. As in the SLURM variant, `_monitor_jobs` submits nothing
and never reads `max_executors`; the failed ids it leaves in
`task_status` enter here as `failedAfterMonitor`. -/
def batchWaitForCompletionSubmits (jobIdOf : String → Option String)
    (deps : String → List String) (tasks : List Task)
    (failedAfterMonitor : List String) (rm : RetryManager) (maxExecutors : Nat) :
    RetryManager × BatchSubState :=
  batchHandleFailedJobs jobIdOf deps tasks failedAfterMonitor rm
    (batchSubmitAllJobs jobIdOf deps tasks)

/-! ## SLURM file state (`tasks.json` and the results directory) -/

/-- The content of `tasks.json`: the `task_id -> state` dict plus the
four parallel status lists. -/
structure TasksJson where
  tasks : List (String × String)
  pending : List String
  in_progress : List String
  completed : List String
  failed : List String
  deriving DecidableEq, Repr

/-- `SlurmBackend._update_task_status`: remove the id from every status
list (`list.remove` drops the first occurrence), append it to the target
list when absent, and set the dict entry. Only the four statuses used by
the backend are modelled. -/
def updateTaskStatus (ts : TasksJson) (tid status : String) : TasksJson :=
  let base : TasksJson :=
    { tasks := assocSet ts.tasks tid status
      pending := ts.pending.erase tid
      in_progress := ts.in_progress.erase tid
      completed := ts.completed.erase tid
      failed := ts.failed.erase tid }
  if status = "pending" then
    { base with pending := if tid ∈ base.pending then base.pending else base.pending ++ [tid] }
  else if status = "in_progress" then
    { base with in_progress :=
        if tid ∈ base.in_progress then base.in_progress else base.in_progress ++ [tid] }
  else if status = "completed" then
    { base with completed :=
        if tid ∈ base.completed then base.completed else base.completed ++ [tid] }
  else if status = "failed" then
    { base with failed := if tid ∈ base.failed then base.failed else base.failed ++ [tid] }
  else base

/-- Durable state of the SLURM backend: the `results/<id>.json` directory
(a filesystem directory holds at most one file per name; writes replace)
and `tasks.json`. -/
structure SlurmState where
  resultFiles : List (String × TaskResult)
  tasksJson : TasksJson
  deriving DecidableEq, Repr

/-- The atomic temp-file-rename write of `results/<id>.json`. -/
def slurmWriteResultFile (s : SlurmState) (tid : String) (r : TaskResult) : SlurmState :=
  { s with resultFiles := assocSet s.resultFiles tid r }

/-- Second step of `SlurmBackend.mark_task_complete`: update `tasks.json`
to `completed`. -/
def slurmSetCompleted (s : SlurmState) (tid : String) : SlurmState :=
  { s with tasksJson := updateTaskStatus s.tasksJson tid "completed" }

/-- `SlurmBackend.mark_task_complete`: durably write the result file,
then update the task status. -/
def slurmMarkTaskComplete (s : SlurmState) (tid : String) (r : TaskResult) : SlurmState :=
  slurmSetCompleted (slurmWriteResultFile s tid r) tid

/-- The externally observable (on-disk) states while `mark_task_complete`
runs. -/
def slurmMarkTaskCompleteTrace (s : SlurmState) (tid : String) (r : TaskResult) :
    List SlurmState :=
  [s, slurmWriteResultFile s tid r, slurmMarkTaskComplete s tid r]

/-- `SlurmBackend.mark_task_failed`: write a failure result file, then
update the task status to `failed`. -/
def slurmMarkTaskFailed (s : SlurmState) (tid error : String) : SlurmState :=
  { slurmWriteResultFile s tid (failedResult tid error) with
    tasksJson := updateTaskStatus (slurmWriteResultFile s tid (failedResult tid error)).tasksJson
      tid "failed" }

/-! ## Worker pool transition system (`ThreadingBackend.wait_for_completion`
and `_executor_worker`) -/

/-- `num_executors_needed = min(num_tasks, max_executors)` in
`wait_for_completion`. -/
def numExecutorsNeeded (numTasks maxExecutors : Nat) : Nat :=
  min numTasks maxExecutors

/-- Shared state of a pool of `n` concurrently running workers: the two
id sets and the result list of the backend, plus the task each worker is
currently executing (claimed but not yet marked terminal). -/
structure PoolState (n : Nat) where
  completed : Finset String
  inProgress : Finset String
  workers : Fin n → Option String
  results : List TaskResult

/-- The pool state right after `wait_for_completion` spawned the workers:
nothing completed, nothing claimed. -/
def poolInit (n : Nat) : PoolState n :=
  { completed := ∅, inProgress := ∅, workers := fun _ => none, results := [] }

/-- Interleaved execution of the worker pool. Each step is one
lock-protected transition of `_executor_worker`: a claim (the scan plus
`in_progress_tasks.add`, atomic under `task_lock`), or a terminal
transition via `mark_task_complete` / `mark_task_failed` by the worker
holding the task. A worker claims only while it holds nothing, because
its loop body executes its claimed task to a terminal mark before the
next scan. -/
inductive PoolStep (tasks : List Task) (plan : Option Plan) {n : Nat} :
    PoolState n → PoolState n → Prop where
  | claim (s : PoolState n) (w : Fin n) (t : Task) :
      s.workers w = none →
      t ∈ tasks →
      t.id ∉ s.completed →
      t.id ∉ s.inProgress →
      canExecuteTask plan s.completed t = true →
      PoolStep tasks plan s
        { completed := s.completed
          inProgress := insert t.id s.inProgress
          workers := Function.update s.workers w (some t.id)
          results := s.results }
  | complete (s : PoolState n) (w : Fin n) (tid : String) (r : TaskResult) :
      s.workers w = some tid →
      PoolStep tasks plan s
        { completed := insert tid s.completed
          inProgress := s.inProgress.erase tid
          workers := Function.update s.workers w none
          results := s.results ++ [r] }
  | fail (s : PoolState n) (w : Fin n) (tid : String) (error : String) :
      s.workers w = some tid →
      PoolStep tasks plan s
        { completed := s.completed
          inProgress := s.inProgress.erase tid
          workers := Function.update s.workers w none
          results := s.results ++ [failedResult tid error] }

/-- A pool state reachable from the spawn point. -/
def PoolReachable (tasks : List Task) (plan : Option Plan) {n : Nat}
    (s : PoolState n) : Prop :=
  Relation.ReflTransGen (PoolStep tasks plan) (poolInit n) s

/-- Every in-progress task is held by some worker. -/
def PoolInv {n : Nat} (s : PoolState n) : Prop :=
  ∀ tid ∈ s.inProgress, ∃ w, s.workers w = some tid

/-! ## Concrete fixtures used by witnesses and counterexamples -/

/-- A task with no dependencies. -/
def taskA : Task :=
  { id := "A", name := "Task A", description := "first task", priority := 1 }

/-- A task that depends on `taskA` in the chain plan, and on `taskC` in
the cyclic plan. -/
def taskB : Task :=
  { id := "B", name := "Task B", description := "second task", priority := 2 }

/-- A task that depends on `taskB` in the cyclic plan. -/
def taskC : Task :=
  { id := "C", name := "Task C", description := "third task", priority := 3 }

/-- A dependency mapping with a cycle `B -> C -> B` and an independent
task `A`. -/
def cyclicDeps : String → List String := fun tid =>
  if tid = "B" then ["C"] else if tid = "C" then ["B"] else []

/-- A chain mapping `B -> A`. -/
def chainDeps : String → List String := fun tid =>
  if tid = "B" then ["A"] else []

/-- An sbatch oracle that accepts every submission. -/
def demoJobIds : String → Option String := fun tid => some ("J_" ++ tid)

/-- Submission-loop outcome on the cyclic plan. -/
def cyclicSubmitResult : SlurmSubState :=
  slurmSubmitAllJobs demoJobIds cyclicDeps [taskA, taskB, taskC] 5

/-- Submission-loop outcome on the chain plan. -/
def chainSubmitResult : SlurmSubState :=
  slurmSubmitAllJobs demoJobIds chainDeps [taskA, taskB] 3

/-- An empty threading backend state over a single pending task. -/
def singleTaskState : ThreadingState :=
  { tasks := [taskA], plan := none, completed_tasks := ∅,
    in_progress_tasks := ∅, results := [] }

/-- An executor function that raises on every attempt. -/
def alwaysFail : Task → ExecOutcome := fun _ => .failure "boom"

/-- `n` iterations of a single worker of the threading backend over the
always-failing single-task plan. -/
def runAlwaysFail : Nat → ThreadingState
  | 0 => singleTaskState
  | n + 1 => (workerIteration alwaysFail (runAlwaysFail n)).1

/-! ## C10: `get_task_status` never returns unknown -/

/-- C10. `ThreadingBackend.get_task_status` never returns `unknown`: a
task id that is not completed, not in progress and has no failure result
recorded — including ids never submitted — yields `pending`. -/
theorem getTaskStatus_never_unknown (s : ThreadingState) (tid : String) :
    getTaskStatus s tid ≠ "unknown" ∧
    (tid ∉ s.completed_tasks → tid ∉ s.in_progress_tasks →
      (∀ r ∈ s.results, ¬(r.task_id = tid ∧ r.status = "failed")) →
      getTaskStatus s tid = "pending") := by
  constructor
  · unfold getTaskStatus
    by_cases h1 : tid ∈ s.completed_tasks
    · simp [h1]
    by_cases h2 : tid ∈ s.in_progress_tasks
    · simp [h1, h2]
    simp only [h1, h2, if_false]
    cases s.results.find? (fun r => r.task_id == tid && r.status == "failed") <;> simp
  · intro h1 h2 h3
    have hfind : s.results.find? (fun r => r.task_id == tid && r.status == "failed") = none := by
      rw [List.find?_eq_none]
      intro r hr
      simp only [Bool.and_eq_true, beq_iff_eq, not_and]
      intro ha hb
      exact h3 r hr ⟨ha, hb⟩
    simp [getTaskStatus, h1, h2, hfind]

/-- Witness for C10: the status of a never-submitted id in the empty
state is `pending` (and in particular not `unknown`). -/
theorem getTaskStatus_never_unknown_witness :
    "Z" ∉ singleTaskState.completed_tasks ∧
    "Z" ∉ singleTaskState.in_progress_tasks ∧
    getTaskStatus singleTaskState "Z" = "pending" :=
  ⟨by decide, by decide,
    (getTaskStatus_never_unknown singleTaskState "Z").2 (by decide) (by decide)
      (by intro r hr; simp [singleTaskState] at hr)⟩

/-! ## C4: the worker pickup predicate -/

/-- C4. The threading worker claims a task only if, at scan time under
the state lock, the task is not completed, not in progress, and every
dependency listed for its id in the plan dependency map is completed. -/
theorem selectTask_claims_only_ready (s : ThreadingState) (t : Task)
    (h : selectTask s = some t) :
    t ∈ s.tasks ∧ t.id ∉ s.completed_tasks ∧ t.id ∉ s.in_progress_tasks ∧
      ∀ p, s.plan = some p → ∀ d ∈ p.dependencies t.id, d ∈ s.completed_tasks := by
  unfold selectTask at h
  have hmem := List.mem_of_find?_eq_some h
  have hpred := List.find?_some h
  simp only [Bool.and_eq_true, Bool.not_eq_true', decide_eq_false_iff_not] at hpred
  obtain ⟨⟨hc, hip⟩, hcan⟩ := hpred
  refine ⟨hmem, hc, hip, ?_⟩
  intro p hp d hd
  rw [hp] at hcan
  unfold canExecuteTask at hcan
  simp only [List.all_eq_true, decide_eq_true_eq] at hcan
  exact hcan d hd

/-- A threading state with a plan in which `taskB` depends on `taskA`,
and `taskA` is already completed. -/
def readyBState : ThreadingState :=
  { tasks := [taskB]
    plan := some { tasks := [taskA, taskB], dependencies := chainDeps }
    completed_tasks := {"A"}
    in_progress_tasks := ∅
    results := [] }

/-- Witness for C4: in `readyBState` the scan selects `taskB`, whose only
dependency `A` is indeed completed. -/
theorem selectTask_claims_only_ready_witness :
    selectTask readyBState = some taskB ∧ "A" ∈ readyBState.completed_tasks :=
  ⟨by decide,
    (selectTask_claims_only_ready readyBState taskB (by decide)).2.2.2
      { tasks := [taskA, taskB], dependencies := chainDeps } rfl "A" (by decide)⟩

/-! ## C7: results recorded before the completed transition -/

/-- C7. A task never becomes observable as completed before its result
is recorded: for the threading backend, every state observable during
`mark_task_complete` in which the id is newly completed already holds the
result in the results table; for the SLURM backend, every on-disk state in
which the id is newly listed completed in `tasks.json` already has the
result file `results/<id>.json` durably written. -/
theorem result_recorded_before_completed :
    (∀ (s : ThreadingState) (tid : String) (r : TaskResult),
      ∀ s1 ∈ markTaskCompleteTrace s tid r,
        tid ∈ s1.completed_tasks → tid ∉ s.completed_tasks → r ∈ s1.results) ∧
    (∀ (s : SlurmState) (tid : String) (r : TaskResult),
      ∀ s1 ∈ slurmMarkTaskCompleteTrace s tid r,
        tid ∈ s1.tasksJson.completed → tid ∉ s.tasksJson.completed →
          assocGet s1.resultFiles tid = some r) := by
  constructor
  · intro s tid r s1 hs1 hcomp hnot
    simp only [markTaskCompleteTrace, List.mem_cons, List.mem_singleton,
      List.not_mem_nil, or_false] at hs1
    rcases hs1 with h | h | h
    · subst h; exact absurd hcomp hnot
    · subst h; exact absurd hcomp hnot
    · subst h
      simp [markTaskComplete, markCompletedSets, recordResult]
  · intro s tid r s1 hs1 hcomp hnot
    simp only [slurmMarkTaskCompleteTrace, List.mem_cons, List.mem_singleton,
      List.not_mem_nil, or_false] at hs1
    rcases hs1 with h | h | h
    · subst h; exact absurd hcomp hnot
    · subst h; exact absurd hcomp hnot
    · subst h
      simp [slurmMarkTaskComplete, slurmSetCompleted, slurmWriteResultFile,
        assocGet_set_self]

/-- A completed-task result used in the concrete scenarios. -/
def resultA : TaskResult :=
  { task_id := "A", status := "completed", error := none }

/-- An initial SLURM on-disk state with the single pending task `A`. -/
def slurmStateA : SlurmState :=
  { resultFiles := []
    tasksJson :=
      { tasks := [("A", "pending")], pending := ["A"], in_progress := [],
        completed := [], failed := [] } }

/-- Witness for C7: concrete instances of both conjuncts, taken at the
final state of the respective traces. -/
theorem result_recorded_before_completed_witness :
    resultA ∈ (markTaskComplete singleTaskState "A" resultA).results ∧
    assocGet (slurmMarkTaskComplete slurmStateA "A" resultA).resultFiles "A" = some resultA :=
  ⟨result_recorded_before_completed.1 singleTaskState "A" resultA
      (markTaskComplete singleTaskState "A" resultA)
      (by simp [markTaskCompleteTrace]) (by decide) (by decide),
    result_recorded_before_completed.2 slurmStateA "A" resultA
      (slurmMarkTaskComplete slurmStateA "A" resultA)
      (by simp [slurmMarkTaskCompleteTrace]) (by decide) (by decide)⟩

/-! ## C8: the budget M does not influence durable-backend submission -/

theorem slurmHandleFailedJobs_budget_irrelevant (jobIdOf : String → Option String)
    (deps : String → List String) (tasks : List Task) (budget1 budget2 : Nat) :
    ∀ (l : List String) (rm : RetryManager) (st : SlurmSubState),
      slurmHandleFailedJobs jobIdOf deps tasks budget1 l rm st =
        slurmHandleFailedJobs jobIdOf deps tasks budget2 l rm st := by
  intro l
  induction l with
  | nil => intro rm st; rfl
  | cons tid rest ih =>
    intro rm st
    unfold slurmHandleFailedJobs
    by_cases hr : rm.shouldRetry tid = true
    · rw [if_pos hr, if_pos hr]
      cases hf : tasks.find? (fun t => t.id == tid) with
      | some t =>
        simp only [hf]
        cases hj : jobIdOf t.id with
        | some j => simp only [hj]; exact ih _ _
        | none => simp only [hj]; exact ih _ _
      | none => simp only [hf]; exact ih _ _
    · rw [if_neg hr, if_neg hr]
      exact ih _ _

/-- C8. For the durable backends the budget `max_executors` has no
influence on behavior: for any two budgets, the same plan, the same
external scheduler (`jobIdOf`), the same monitoring outcome and the same
retry configuration, `wait_for_completion` performs exactly the same
external submissions — across both the initial submission pass and the
`_handle_failed_jobs` retry pass — with the same dependency job ids, in
the same order, leaving the same recorded state and the same retry
counts; the parameter is used only in log output. -/
theorem budget_has_no_influence_on_durable_submission
    (jobIdOf : String → Option String) (deps : String → List String)
    (tasks : List Task) (failedAfterMonitor : List String) (rm : RetryManager)
    (budget1 budget2 : Nat) :
    slurmWaitForCompletionSubmits jobIdOf deps tasks failedAfterMonitor rm budget1 =
      slurmWaitForCompletionSubmits jobIdOf deps tasks failedAfterMonitor rm budget2 ∧
    batchWaitForCompletionSubmits jobIdOf deps tasks failedAfterMonitor rm budget1 =
      batchWaitForCompletionSubmits jobIdOf deps tasks failedAfterMonitor rm budget2 :=
  ⟨slurmHandleFailedJobs_budget_irrelevant jobIdOf deps tasks budget1 budget2
      failedAfterMonitor rm (slurmSubmitAllJobs jobIdOf deps tasks budget1),
    rfl⟩

/-! ## C9: dependency expressions handed to the external schedulers -/

theorem slurmDepJobIds_all_known (jobIds : List (String × String)) :
    ∀ (deps js : List String),
      deps.map (fun d => assocGet jobIds d) = js.map some →
      slurmDepJobIds jobIds deps = js := by
  intro deps
  induction deps with
  | nil =>
    intro js h
    cases js with
    | nil => rfl
    | cons j js' => simp at h
  | cons d ds ih =>
    intro js h
    cases js with
    | nil => simp at h
    | cons j js' =>
      simp only [List.map_cons, List.cons.injEq] at h
      obtain ⟨h1, h2⟩ := h
      simp only [slurmDepJobIds, List.filterMap_cons, h1]
      exact congrArg (j :: ·) (ih js' h2)

/-- C9. When a task whose declared dependencies all received backend job
ids `J1..Jn` is submitted, the SLURM variant passes
`--dependency afterok:J1:...:Jn` inside the sbatch command and the Batch
variant passes one `{jobId: Ji, type: SEQUENTIAL}` entry per dependency
job id; with no dependency job ids neither variant passes a dependency
expression. -/
theorem dependency_expressions (jobIds : List (String × String))
    (deps js : List String) (sbatchArgs : List String)
    (taskName taskId logsDir scriptPath : String)
    (h : deps.map (fun d => assocGet jobIds d) = js.map some) :
    slurmDepJobIds jobIds deps = js ∧
    (js ≠ [] →
      ["--dependency", "afterok:" ++ String.intercalate ":" js] <:+:
        buildSbatchCmd sbatchArgs taskName taskId logsDir js scriptPath) ∧
    (js = [] →
      buildSbatchCmd sbatchArgs taskName taskId logsDir js scriptPath =
        ["sbatch"] ++ sbatchArgs ++
        ["--job-name", "po_" ++ taskName ++ "_" ++ taskId] ++
        ["--output", logsDir ++ "/" ++ taskId ++ ".out",
         "--error", logsDir ++ "/" ++ taskId ++ ".err"] ++
        [scriptPath]) ∧
    (js ≠ [] →
      batchDependsOnArgs js =
        some (js.map (fun jid => { jobId := jid, type := "SEQUENTIAL" }))) ∧
    (js = [] → batchDependsOnArgs js = none) := by
  refine ⟨slurmDepJobIds_all_known jobIds deps js h, ?_, ?_, ?_, ?_⟩
  · intro hne
    have hemp : js.isEmpty = false := by
      cases js with
      | nil => exact absurd rfl hne
      | cons a l => rfl
    refine ⟨["sbatch"] ++ sbatchArgs ++
      ["--job-name", "po_" ++ taskName ++ "_" ++ taskId] ++
      ["--output", logsDir ++ "/" ++ taskId ++ ".out",
       "--error", logsDir ++ "/" ++ taskId ++ ".err"], [scriptPath], ?_⟩
    simp [buildSbatchCmd, sbatchDependencyArgs, hemp]
  · intro he
    subst he
    simp [buildSbatchCmd, sbatchDependencyArgs]
  · intro hne
    have hemp : js.isEmpty = false := by
      cases js with
      | nil => exact absurd rfl hne
      | cons a l => rfl
    simp [batchDependsOnArgs, hemp]
  · intro he
    subst he
    rfl

/-- Witness for C9: dependencies `[A, B]` with job ids `J1`, `J2` yield
the expression `afterok:J1:J2` inside the sbatch command and the two
SEQUENTIAL entries for Batch. -/
theorem dependency_expressions_witness :
    ["--dependency", "afterok:J1:J2"] <:+:
      buildSbatchCmd [] "t" "D" "logs" ["J1", "J2"] "script.sh" ∧
    batchDependsOnArgs ["J1", "J2"] =
      some [{ jobId := "J1", type := "SEQUENTIAL" }, { jobId := "J2", type := "SEQUENTIAL" }] :=
  ⟨(dependency_expressions [("A", "J1"), ("B", "J2")] ["A", "B"] ["J1", "J2"]
      [] "t" "D" "logs" "script.sh" (by decide)).2.1 (by decide),
    (dependency_expressions [("A", "J1"), ("B", "J2")] ["A", "B"] ["J1", "J2"]
      [] "t" "D" "logs" "script.sh" (by decide)).2.2.2.1 (by decide)⟩

/-! ## C3: the backoff delay actually slept before a retry -/

theorem delayBeforeRetry_default_eval :
    delayBeforeRetry defaultRetryManager "A" = (1, 10) := by
  show (_, RetryManager.getDelay _ "A") = (1, 10)
  rw [Prod.mk.injEq]
  refine ⟨rfl, ?_⟩
  norm_num [RetryManager.getDelay, RetryManager.getCount, RetryManager.recordAttempt,
    defaultRetryManager, assocGet, assocSet, List.find?]

/-- Counterexample for C3. On the first retry (`k = 1`,
`attempts_used = 1` after `record_attempt`), `_handle_failed_jobs` sleeps
`get_delay`, which with the defaults is `5 * 2 ^ 1 = 10` seconds — not
`base_delay * multiplier ^ (k - 1) = 5 * 2 ^ 0 = 5` as the claim
states. -/
theorem first_retry_delay_not_claimed_formula :
    delayBeforeRetry defaultRetryManager "A" = (1, 10) ∧
    defaultRetryManager.base_delay * defaultRetryManager.backoff_multiplier ^ (1 - 1) = 5 ∧
    (delayBeforeRetry defaultRetryManager "A").2 ≠
      defaultRetryManager.base_delay * defaultRetryManager.backoff_multiplier ^ (1 - 1) := by
  have h1 := delayBeforeRetry_default_eval
  have h2 : defaultRetryManager.base_delay *
      defaultRetryManager.backoff_multiplier ^ (1 - 1) = 5 := by
    norm_num [defaultRetryManager]
  refine ⟨h1, h2, ?_⟩
  rw [h1, h2]
  norm_num

theorem getCount_recordAttempt (rm : RetryManager) (tid : String) :
    ((rm.recordAttempt tid).1).getCount tid = rm.getCount tid + 1 := by
  unfold RetryManager.recordAttempt RetryManager.getCount
  simp [assocGet_set_self]

/-- C3 amended. Because `_handle_failed_jobs` calls `record_attempt`
before `get_delay`, the delay slept before re-submitting on the k-th
retry is `base_delay * multiplier ^ k` (the exponent is the incremented
attempt count), and `base_delay` with backoff disabled; the defaults are
`max_retries = 3`, `base_delay = 5 s`, `multiplier = 2.0`. -/
theorem retry_delay_formula (rm : RetryManager) (tid : String) :
    (rm.exponential_backoff = true →
      (delayBeforeRetry rm tid).2 =
        rm.base_delay * rm.backoff_multiplier ^ (delayBeforeRetry rm tid).1) ∧
    (rm.exponential_backoff = false → (delayBeforeRetry rm tid).2 = rm.base_delay) ∧
    defaultRetryManager.max_retries = 3 ∧
    defaultRetryManager.base_delay = 5 ∧
    defaultRetryManager.backoff_multiplier = 2 ∧
    defaultRetryManager.exponential_backoff = true := by
  have hk : (delayBeforeRetry rm tid).1 = rm.getCount tid + 1 := rfl
  have hcount : ((rm.recordAttempt tid).1).getCount tid = rm.getCount tid + 1 :=
    getCount_recordAttempt rm tid
  refine ⟨?_, ?_, rfl, rfl, rfl, rfl⟩
  · intro hexp
    show ((rm.recordAttempt tid).1).getDelay tid = _
    unfold RetryManager.getDelay
    have hexp1 : ((rm.recordAttempt tid).1).exponential_backoff = true := hexp
    rw [if_pos hexp1, hcount, hk]
    rfl
  · intro hexp
    show ((rm.recordAttempt tid).1).getDelay tid = _
    unfold RetryManager.getDelay
    have hexp1 : ((rm.recordAttempt tid).1).exponential_backoff = false := hexp
    rw [if_neg (by rw [hexp1]; exact Bool.false_ne_true)]
    rfl

/-- Witness for C3 (amended): with the defaults, the first retry of task
`A` sleeps `5 * 2 ^ 1 = 10` seconds. -/
theorem retry_delay_formula_witness :
    defaultRetryManager.exponential_backoff = true ∧
    (delayBeforeRetry defaultRetryManager "A").2 =
      defaultRetryManager.base_delay *
        defaultRetryManager.backoff_multiplier ^ (delayBeforeRetry defaultRetryManager "A").1 :=
  ⟨rfl, (retry_delay_formula defaultRetryManager "A").1 rfl⟩

/-! ## C6: at most one result per task id -/

/-- The result list after task `t1` fails once and succeeds on the
re-execution in the threading backend. -/
def retriedT1State : ThreadingState :=
  markTaskComplete
    (markTaskFailed
      { tasks := [{ id := "t1", name := "T1", description := "retried task", priority := 1 }]
        plan := none, completed_tasks := ∅, in_progress_tasks := ∅, results := [] }
      "t1" "boom")
    "t1" { task_id := "t1", status := "completed", error := none }

/-- Counterexample for C6. In the threading backend `mark_task_failed`
and `mark_task_complete` both append to the results list, so after a
failure followed by a successful re-execution `get_results` holds two
results for the same id — the earlier result is not overwritten. -/
theorem threading_results_accumulate :
    ¬ (((getResults retriedT1State).filter (fun r => r.task_id == "t1")).length ≤ 1) := by
  decide

theorem assocCount_eq_zero {α : Type} (m : List (String × α)) (k : String)
    (h : m.any (fun p => p.1 == k) = false) : assocCount m k = 0 := by
  unfold assocCount
  rw [List.length_eq_zero, List.filter_eq_nil_iff]
  intro a ha
  rw [List.any_eq_false] at h
  exact h a ha

theorem filter_set_length {α : Type} (k : String) (v : α) (m : List (String × α)) :
    ((m.map (fun p => if p.1 == k then (k, v) else p)).filter
        (fun p => p.1 == k)).length =
      (m.filter (fun p => p.1 == k)).length := by
  induction m with
  | nil => rfl
  | cons p t ih =>
    by_cases hp : (p.1 == k) = true
    · have hv : (if (p.1 == k) = true then (k, v) else p) = (k, v) := by simp [hp]
      rw [List.map_cons, hv, List.filter_cons, List.filter_cons,
        if_pos (show ((k, v).1 == k) = true by simp), if_pos hp]
      simp only [List.length_cons, ih]
    · have hv : (if (p.1 == k) = true then (k, v) else p) = p := by simp [hp]
      rw [List.map_cons, hv, List.filter_cons, List.filter_cons, if_neg hp, if_neg hp]
      exact ih

theorem assocCount_set {α : Type} (m : List (String × α)) (k : String) (v : α) :
    assocCount (assocSet m k v) k =
      if m.any (fun p => p.1 == k) then assocCount m k else assocCount m k + 1 := by
  unfold assocSet
  by_cases h : m.any (fun p => p.1 == k) = true
  · rw [if_pos h, if_pos h]
    exact filter_set_length k v m
  · rw [if_neg h, if_neg h]
    unfold assocCount
    rw [List.filter_append]
    simp only [List.filter_cons, beq_self_eq_true, if_true, List.filter_nil,
      List.length_append, List.length_cons, List.length_nil]

theorem assocCount_set_le_one {α : Type} (m : List (String × α)) (k : String) (v : α)
    (h : assocCount m k ≤ 1) : assocCount (assocSet m k v) k ≤ 1 := by
  rw [assocCount_set]
  by_cases ha : m.any (fun p => p.1 == k) = true
  · rw [if_pos ha]; exact h
  · rw [if_neg ha, assocCount_eq_zero m k (Bool.eq_false_iff.mpr ha)]

/-- C6 amended. In the SLURM backend a retried task's earlier result file
is overwritten: `results/<id>.json` keeps a single entry holding the
latest result. In the threading backend results are appended instead, so
a task that fails and then completes accumulates both results in
`get_results`. -/
theorem result_overwrite_per_backend :
    (∀ (s : SlurmState) (tid error : String) (r : TaskResult),
      assocCount s.resultFiles tid ≤ 1 →
      assocCount (slurmMarkTaskComplete (slurmMarkTaskFailed s tid error) tid r).resultFiles
          tid ≤ 1 ∧
        assocGet (slurmMarkTaskComplete (slurmMarkTaskFailed s tid error) tid r).resultFiles
          tid = some r) ∧
    (∀ (s : ThreadingState) (tid error : String) (r : TaskResult),
      getResults (markTaskComplete (markTaskFailed s tid error) tid r) =
        s.results ++ [failedResult tid error, r]) := by
  constructor
  · intro s tid error r h
    constructor
    · exact assocCount_set_le_one _ tid r (assocCount_set_le_one _ tid _ h)
    · exact assocGet_set_self _ tid r
  · intro s tid error r
    simp [getResults, markTaskComplete, markCompletedSets, recordResult, markTaskFailed]

/-- Witness for C6 (amended): starting from the empty results directory,
a failure followed by a completion of `A` leaves exactly one result file,
holding the completion result. -/
theorem result_overwrite_per_backend_witness :
    assocCount slurmStateA.resultFiles "A" ≤ 1 ∧
    assocCount (slurmMarkTaskComplete (slurmMarkTaskFailed slurmStateA "A" "boom")
        "A" resultA).resultFiles "A" ≤ 1 ∧
    assocGet (slurmMarkTaskComplete (slurmMarkTaskFailed slurmStateA "A" "boom")
        "A" resultA).resultFiles "A" = some resultA :=
  ⟨by decide,
    (result_overwrite_per_backend.1 slurmStateA "A" "boom" resultA (by decide)).1,
    (result_overwrite_per_backend.1 slurmStateA "A" "boom" resultA (by decide)).2⟩

/-! ## C1: retry policy on execution failure -/

theorem workerIteration_alwaysFail_step (rs : List TaskResult) :
    (workerIteration alwaysFail
      { tasks := [taskA], plan := none, completed_tasks := ∅,
        in_progress_tasks := ∅, results := rs }).1 =
      { tasks := [taskA], plan := none, completed_tasks := ∅,
        in_progress_tasks := ∅, results := rs ++ [failedResult "A" "boom"] } := by
  have hsel : selectTask { tasks := [taskA], plan := none, completed_tasks := ∅,
                           in_progress_tasks := ∅, results := rs } = some taskA := by
    unfold selectTask
    simp [List.find?, canExecuteTask, taskA]
  unfold workerIteration
  rw [hsel]
  show (markTaskFailed _ taskA.id "boom", false).1 = _
  unfold markTaskFailed claimTask
  simp [taskA, Finset.erase_insert_eq_erase, Finset.erase_empty]

theorem runAlwaysFail_results (n : Nat) :
    runAlwaysFail n =
      { tasks := [taskA], plan := none, completed_tasks := ∅,
        in_progress_tasks := ∅,
        results := List.replicate n (failedResult "A" "boom") } := by
  induction n with
  | zero => rfl
  | succ n ih =>
    show (workerIteration alwaysFail (runAlwaysFail n)).1 = _
    rw [ih, workerIteration_alwaysFail_step, ← List.replicate_succ']

theorem length_filter_failed_replicate (n : Nat) :
    ((List.replicate n (failedResult "A" "boom")).filter
      (fun r => r.status == "failed")).length = n := by
  induction n with
  | zero => rfl
  | succ n ih => simp [List.replicate_succ, List.filter_cons, failedResult, ih]

/-- Counterexample for C1. The in-memory (threading) backend does not
implement the retry policy at all: `mark_task_failed` keeps no attempt
counter and leaves the failed task claimable again, so after five worker
iterations over an always-failing task the run has recorded five failing
attempts — more than `max_retries + 1 = 4` under the default
configuration. -/
theorem threading_failure_attempts_exceed_bound :
    defaultRetryManager.max_retries + 1 < failedCount (runAlwaysFail 5) := by
  rw [runAlwaysFail_results]
  unfold failedCount
  rw [length_filter_failed_replicate]
  decide

/-- C1 amended. The attempts-bounded retry policy lives only in the
durable backends: their `RetryManager` retries a task exactly while the
recorded attempts stay below `max_retries`, incrementing the count on
each retry. The threading backend records no attempt count:
`mark_task_failed` appends a failure result and removes the id from
`in_progress_tasks` only, so the failed task is immediately claimable
again and the number of failing attempts of an always-failing task grows
with every iteration instead of being bounded by `max_retries + 1`. -/
theorem retry_policy_per_backend :
    (∀ n : Nat, failedCount (runAlwaysFail n) = n) ∧
    (∀ (rm : RetryManager) (tid : String),
      (rm.shouldRetry tid = true ↔ rm.getCount tid < rm.max_retries) ∧
      ((rm.recordAttempt tid).1).getCount tid = rm.getCount tid + 1) := by
  constructor
  · intro n
    rw [runAlwaysFail_results]
    unfold failedCount
    exact length_filter_failed_replicate n
  · intro rm tid
    refine ⟨?_, getCount_recordAttempt rm tid⟩
    unfold RetryManager.shouldRetry
    exact decide_eq_true_iff

/-! ## C2: cyclic plans -/

/-- Counterexample for C2. No cycle validation exists: on the plan with
dependency cycle `B -> C -> B` and independent task `A`, the durable
submission loop still submits `A` to the external scheduler and marks it
in progress — so a plan whose dependency mapping contains a cycle does
have tasks submitted to a backend and marked IN_PROGRESS, and no
`CyclicDependency` failure precedes `run`. -/
theorem cyclic_plan_task_still_submitted :
    ("C" ∈ cyclicDeps "B" ∧ "B" ∈ cyclicDeps "C") ∧
    "A" ∈ cyclicSubmitResult.submitted ∧
    assocGet cyclicSubmitResult.statuses "A" = some "in_progress" := by
  refine ⟨⟨by decide, by decide⟩, by decide, by decide⟩

theorem slurmSubmitRound_submitted_extends (jobIdOf : String → Option String)
    (deps : String → List String) :
    ∀ (l : List Task) (st : SlurmSubState) (x : String),
      x ∈ st.submitted → x ∈ (slurmSubmitRound jobIdOf deps l st).submitted := by
  intro l
  induction l with
  | nil => intro st x hx; exact hx
  | cons t rest ih =>
    intro st x hx
    unfold slurmSubmitRound
    cases h : jobIdOf t.id with
    | some j =>
      simp only [h]
      apply ih
      exact List.mem_append_left _ hx
    | none =>
      simp only [h]
      exact ih st x hx

theorem slurmSubmitRound_closed (jobIdOf : String → Option String)
    (deps : String → List String) :
    ∀ (l : List Task) (st : SlurmSubState),
      (∀ x ∈ st.submitted, ∀ d ∈ deps x, d ∈ st.submitted) →
      (∀ t ∈ l, ∀ d ∈ deps t.id, d ∈ st.submitted) →
      ∀ x ∈ (slurmSubmitRound jobIdOf deps l st).submitted,
        ∀ d ∈ deps x, d ∈ (slurmSubmitRound jobIdOf deps l st).submitted := by
  intro l
  induction l with
  | nil => intro st hcl _ x hx d hd; exact hcl x hx d hd
  | cons t rest ih =>
    intro st hcl hdeps
    unfold slurmSubmitRound
    cases h : jobIdOf t.id with
    | some j =>
      simp only [h]
      apply ih
      · intro x hx d hd
        rw [List.mem_append] at hx
        cases hx with
        | inl hx0 => exact List.mem_append_left _ (hcl x hx0 d hd)
        | inr hx1 =>
          rw [List.mem_singleton] at hx1
          subst hx1
          exact List.mem_append_left _ (hdeps t (List.mem_cons_self t rest) d hd)
      · intro u hu d hd
        exact List.mem_append_left _ (hdeps u (List.mem_cons_of_mem t hu) d hd)
    | none =>
      simp only [h]
      apply ih
      · exact hcl
      · intro u hu d hd
        exact hdeps u (List.mem_cons_of_mem t hu) d hd

theorem slurmSubmitLoop_closed (jobIdOf : String → Option String)
    (deps : String → List String) :
    ∀ (fuel : Nat) (pending : List Task) (st : SlurmSubState),
      (∀ x ∈ st.submitted, ∀ d ∈ deps x, d ∈ st.submitted) →
      ∀ x ∈ (slurmSubmitLoop jobIdOf deps fuel pending st).submitted,
        ∀ d ∈ deps x, d ∈ (slurmSubmitLoop jobIdOf deps fuel pending st).submitted := by
  intro fuel
  induction fuel with
  | zero => intro pending st hcl; exact hcl
  | succ fuel ih =>
    intro pending st hcl
    unfold slurmSubmitLoop
    by_cases hre : (pending.filter (fun t =>
        (deps t.id).all (fun d => decide (d ∈ st.submitted)))).isEmpty = true
    · simp only [hre, if_true]
      exact hcl
    · simp only [hre, if_false]
      apply ih
      apply slurmSubmitRound_closed jobIdOf deps _ st hcl
      intro t ht d hd
      rw [List.mem_filter] at ht
      have hall := ht.2
      rw [List.all_eq_true] at hall
      exact of_decide_eq_true (hall d hd)

/-- C2 amended. The code never validates plans for cycles and `run`
proceeds on a cyclic plan. In the durable submission loop a task is
submitted only once every one of its declared dependencies has been
submitted; consequently, on the concrete cyclic plan `B -> C -> B` with
independent `A`, the tasks in the cycle are never submitted (the loop
logs a warning and stops) while `A` is submitted and marked in
progress. -/
theorem submitted_tasks_have_submitted_deps :
    (∀ (jobIdOf : String → Option String) (deps : String → List String)
        (tasks : List Task) (budget : Nat) (x d : String),
      x ∈ (slurmSubmitAllJobs jobIdOf deps tasks budget).submitted →
      d ∈ deps x →
      d ∈ (slurmSubmitAllJobs jobIdOf deps tasks budget).submitted) ∧
    ("B" ∉ cyclicSubmitResult.submitted ∧ "C" ∉ cyclicSubmitResult.submitted ∧
      "A" ∈ cyclicSubmitResult.submitted) := by
  constructor
  · intro jobIdOf deps tasks budget x d hx hd
    exact slurmSubmitLoop_closed jobIdOf deps tasks.length tasks _
      (fun y hy => absurd hy (List.not_mem_nil y)) x hx d hd
  · exact ⟨by decide, by decide, by decide⟩

/-- Witness for C2 (amended): on the chain plan `B -> A`, `B` was
submitted, so its dependency `A` was submitted as well. -/
theorem submitted_tasks_have_submitted_deps_witness :
    "B" ∈ chainSubmitResult.submitted ∧ "A" ∈ chainDeps "B" ∧
    "A" ∈ chainSubmitResult.submitted :=
  ⟨by decide, by decide,
    submitted_tasks_have_submitted_deps.1 demoJobIds chainDeps [taskA, taskB] 3 "B" "A"
      (by decide) (by decide)⟩

/-! ## C5: the in-progress budget of the in-memory backend -/

theorem poolInv_step {n : Nat} (tasks : List Task) (plan : Option Plan)
    (s s1 : PoolState n) (h : PoolStep tasks plan s s1) (hinv : PoolInv s) :
    PoolInv s1 := by
  cases h with
  | claim w t hw hmem hc hip hcan =>
    intro tid htid
    rw [Finset.mem_insert] at htid
    cases htid with
    | inl he =>
      exact ⟨w, by dsimp only; rw [Function.update_same, he]⟩
    | inr hm =>
      obtain ⟨w1, hw1⟩ := hinv tid hm
      have hne : w1 ≠ w := by
        intro hcontra
        rw [hcontra, hw] at hw1
        cases hw1
      exact ⟨w1, by dsimp only; rw [Function.update_noteq hne]; exact hw1⟩
  | complete w tid0 r hw =>
    intro tid htid
    rw [Finset.mem_erase] at htid
    obtain ⟨hne0, hm⟩ := htid
    obtain ⟨w1, hw1⟩ := hinv tid hm
    have hne : w1 ≠ w := by
      intro hcontra
      rw [hcontra, hw] at hw1
      injection hw1 with heq
      exact hne0 heq.symm
    exact ⟨w1, by dsimp only; rw [Function.update_noteq hne]; exact hw1⟩
  | fail w tid0 error hw =>
    intro tid htid
    rw [Finset.mem_erase] at htid
    obtain ⟨hne0, hm⟩ := htid
    obtain ⟨w1, hw1⟩ := hinv tid hm
    have hne : w1 ≠ w := by
      intro hcontra
      rw [hcontra, hw] at hw1
      injection hw1 with heq
      exact hne0 heq.symm
    exact ⟨w1, by dsimp only; rw [Function.update_noteq hne]; exact hw1⟩

theorem poolInv_reachable {n : Nat} (tasks : List Task) (plan : Option Plan)
    (s : PoolState n) (h : PoolReachable tasks plan s) : PoolInv s := by
  unfold PoolReachable at h
  induction h with
  | refl =>
    intro tid htid
    exact absurd htid (Finset.not_mem_empty tid)
  | tail hsteps hstep ih =>
    exact poolInv_step tasks plan _ _ hstep ih

theorem poolInv_card_le {n : Nat} (s : PoolState n) (hinv : PoolInv s) :
    s.inProgress.card ≤ n := by
  have hsub : s.inProgress ⊆
      Finset.univ.biUnion (fun w : Fin n => (s.workers w).toFinset) := by
    intro tid htid
    obtain ⟨w, hw⟩ := hinv tid htid
    rw [Finset.mem_biUnion]
    exact ⟨w, Finset.mem_univ w, by rw [hw]; exact Option.mem_toFinset.mpr rfl⟩
  calc s.inProgress.card
      ≤ (Finset.univ.biUnion (fun w : Fin n => (s.workers w).toFinset)).card :=
        Finset.card_le_card hsub
    _ ≤ ∑ w : Fin n, (s.workers w).toFinset.card := Finset.card_biUnion_le
    _ ≤ ∑ _w : Fin n, 1 :=
        Finset.sum_le_sum (fun w _ => by cases s.workers w <;> simp)
    _ = n := by simp

/-- C5. In the in-memory backend, `wait_for_completion` spawns exactly
`min(len(tasks), max_executors)` workers, and in every state reachable by
interleaved claim / complete / fail transitions of those workers the
number of in-progress tasks is at most the worker count — in particular
at most the budget `max_executors`. -/
theorem in_progress_bounded_by_budget (tasks : List Task) (plan : Option Plan)
    (maxExecutors : Nat)
    (s : PoolState (numExecutorsNeeded tasks.length maxExecutors))
    (h : PoolReachable tasks plan s) :
    numExecutorsNeeded tasks.length maxExecutors = min tasks.length maxExecutors ∧
    s.inProgress.card ≤ numExecutorsNeeded tasks.length maxExecutors ∧
    s.inProgress.card ≤ maxExecutors := by
  have hcard := poolInv_card_le s (poolInv_reachable tasks plan s h)
  exact ⟨rfl, hcard, le_trans hcard (min_le_right _ _)⟩

/-- Witness for C5: after a single worker of the pool for one task and
budget 2 claims task `A`, one task is in progress — within the budget. -/
theorem in_progress_bounded_by_budget_witness :
    PoolReachable [taskA] none
      { completed := (∅ : Finset String)
        inProgress := insert taskA.id (∅ : Finset String)
        workers := Function.update
          (fun _ : Fin (numExecutorsNeeded 1 2) => (none : Option String))
          ⟨0, by decide⟩ (some taskA.id)
        results := ([] : List TaskResult) } ∧
    (insert taskA.id (∅ : Finset String)).card ≤ 2 := by
  have hstep : PoolStep [taskA] none (poolInit (numExecutorsNeeded 1 2))
      { completed := (∅ : Finset String)
        inProgress := insert taskA.id (∅ : Finset String)
        workers := Function.update
          (fun _ : Fin (numExecutorsNeeded 1 2) => (none : Option String))
          ⟨0, by decide⟩ (some taskA.id)
        results := ([] : List TaskResult) } :=
    PoolStep.claim (poolInit (numExecutorsNeeded 1 2)) ⟨0, by decide⟩ taskA
      rfl (List.mem_singleton.mpr rfl) (Finset.not_mem_empty _)
      (Finset.not_mem_empty _) rfl
  have hreach : PoolReachable [taskA] none
      { completed := (∅ : Finset String)
        inProgress := insert taskA.id (∅ : Finset String)
        workers := Function.update
          (fun _ : Fin (numExecutorsNeeded 1 2) => (none : Option String))
          ⟨0, by decide⟩ (some taskA.id)
        results := ([] : List TaskResult) } :=
    Relation.ReflTransGen.single hstep
  exact ⟨hreach,
    (in_progress_bounded_by_budget [taskA] none 2 _ hreach).2.2⟩

end PO
